import Mathlib

/-!
Verification development for the RooflinePlots roofline-model pipeline.

The Python wrapper (`extensions/python/python_utils.py`) is embedded directly:
`RooflinePlotter` with its `create_plot`, `save`, `print_table`,
`get_bottleneck` methods and the `_make_julia_dict` serialization helper.
The Julia-side model core (`RooflineParams`, `params_to_config`,
`determine_bottleneck`) is not present in the repository snapshot, so the
measurement resolver, config builder and bottleneck analyzer are modelled
from the specification (sections 4.1-4.3); such definitions carry a doc
comment starting with `Modelled from the spec:`.

Numeric quantities (bandwidths, flop rates) are embedded as rationals.
-/

/-- A memory hierarchy level: name, peak bandwidth (GB/s), and an optional
measured bandwidth (absent means "not measured at this level"). Spec section 3. -/
structure MemoryLevel where
  name : String
  peak_bandwidth : ℚ
  measured_bandwidth : Option ℚ
deriving DecidableEq, Repr

/-- A compute roof: name and peak throughput (GFLOP/s). Spec section 3. -/
structure ComputeRoof where
  name : String
  peak_flops : ℚ
deriving DecidableEq, Repr

/-- A resolved measurement: the compute roof it references (by name) and the
achieved flop rate. Spec section 3. -/
structure Measurement where
  compute_name : String
  flops : ℚ
deriving DecidableEq, Repr

/-- The assembled immutable model. Spec section 3; `warnings` carries the
anomalous-but-not-fatal findings of validation (spec sections 4.2 and 7). -/
structure RooflineConfig where
  memory_levels : List MemoryLevel
  compute_roofs : List ComputeRoof
  measurements : List Measurement
  simple_mode : Bool
  num_cores : Nat
  topology : String
  cpu_name : String
  app_name : String
  warnings : List String
deriving DecidableEq, Repr

/-- One entry of a memory or compute mapping as the Python caller supplies it:
a name mapped to a `(peak, measured-or-absent)` pair (`python_utils.py`,
`create_plot` arguments `memory` and `compute`). -/
abbrev SpecEntry := String × ℚ × Option ℚ

/-- A build request, the boundary contract of spec section 6: memory mapping,
compute mapping, optional `combined_flops`, optional combined groups, scalar
metadata, and the `force_simple` flag (the wrapper forwards it through
`OutputOptions`). -/
structure BuildRequest where
  memory : List SpecEntry
  compute : List SpecEntry
  combined_flops : Option ℚ
  combined_groups : List (List String × ℚ)
  num_cores : Nat
  topology : String
  cpu_name : String
  app_name : String
  force_simple : Bool
deriving DecidableEq, Repr

/-- Modelled from the spec: step 1 of the MeasurementResolver (section 4.1) —
for each compute entry with an individually measured value present, emit one
Measurement with that value, in declaration order. -/
def individualMeasurements (compute : List SpecEntry) : List Measurement :=
  compute.filterMap (fun e => e.2.2.map (fun v => Measurement.mk e.1 v))

/-- Modelled from the spec: step 2 of the MeasurementResolver (section 4.1) —
when `combined_flops` is supplied, emit one Measurement per compute entry that
lacks an individual value, each carrying the same combined value. -/
def combinedScalarMeasurements (compute : List SpecEntry) (x : ℚ) : List Measurement :=
  (compute.filter (fun e => e.2.2.isNone)).map (fun e => Measurement.mk e.1 x)

/-- Modelled from the spec: step 3 of the MeasurementResolver (section 4.1) —
for each combined group emit one Measurement per member compute name, all
carrying that group's measured value. -/
def groupMeasurements (groups : List (List String × ℚ)) : List Measurement :=
  groups.flatMap (fun g => g.1.map (fun n => Measurement.mk n g.2))

/-- Modelled from the spec: the MeasurementResolver (section 4.1; the Julia
function behind `params_to_config` is absent from the snapshot). Individually
measured values come first, then combined-assigned ones; mixing
`combined_flops` with combined groups is rejected as invalid input. -/
def resolveMeasurements (compute : List SpecEntry) (combined_flops : Option ℚ)
    (combined_groups : List (List String × ℚ)) : Except String (List Measurement) :=
  match combined_flops with
  | some x =>
    if combined_groups.isEmpty then
      Except.ok (individualMeasurements compute ++ combinedScalarMeasurements compute x)
    else
      Except.error "invalid specification: combined_flops and combined groups are mutually exclusive"
  | none =>
    Except.ok (individualMeasurements compute ++ groupMeasurements combined_groups)

/-- Validation helper: every declared peak value is strictly positive
(spec section 4.2). -/
def peaksPositive (l : List SpecEntry) : Bool :=
  l.all (fun e => decide (0 < e.2.1))

/-- Validation helper: every measured value, when present, is non-negative
(spec section 4.2). -/
def measuredNonneg (l : List SpecEntry) : Bool :=
  l.all (fun e =>
    match e.2.2 with
    | some v => decide (0 ≤ v)
    | none => true)

/-- Modelled from the spec: the warning-level anomaly check of section 4.2 —
a measured value exceeding its peak by more than the tolerance is flagged as a
warning attached to the result, never a failure. -/
def overPeakWarnings (kind : String) (tol : ℚ) (l : List SpecEntry) : List String :=
  (l.filter (fun e =>
    match e.2.2 with
    | some v => decide (e.2.1 * (1 + tol) < v)
    | none => false)).map
    (fun e => kind ++ " measured value exceeds peak beyond tolerance: " ++ e.1)

/-- Validation helper: every resolved Measurement references a declared
compute roof (spec section 4.2). -/
def referencesResolve (roofs : List ComputeRoof) (ms : List Measurement) : Bool :=
  ms.all (fun m => roofs.any (fun r => r.name == m.compute_name))

/-- Modelled from the spec: the ConfigBuilder (section 4.2; the Julia function
`params_to_config` is absent from the snapshot). Fail-fast validation, then
assembly of the immutable config; `simple_mode` is forced or derived from the
mapping sizes; over-peak measured values only produce warnings. -/
def buildConfig (tol : ℚ) (req : BuildRequest) : Except String RooflineConfig :=
  if req.memory.isEmpty || req.compute.isEmpty then
    Except.error "invalid specification: empty memory or compute mapping"
  else if !(peaksPositive req.memory && peaksPositive req.compute) then
    Except.error "invalid specification: non-positive peak value"
  else if !(measuredNonneg req.memory && measuredNonneg req.compute) then
    Except.error "invalid specification: negative measured value"
  else
    match resolveMeasurements req.compute req.combined_flops req.combined_groups with
    | Except.error e => Except.error e
    | Except.ok ms =>
      if !(referencesResolve (req.compute.map (fun e => ComputeRoof.mk e.1 e.2.1)) ms) then
        Except.error "invalid specification: measurement references undeclared compute type"
      else
        Except.ok {
          memory_levels := req.memory.map (fun e => MemoryLevel.mk e.1 e.2.1 e.2.2)
          compute_roofs := req.compute.map (fun e => ComputeRoof.mk e.1 e.2.1)
          measurements := ms
          simple_mode := req.force_simple || (req.memory.length == 1 && req.compute.length == 1)
          num_cores := req.num_cores
          topology := req.topology
          cpu_name := req.cpu_name
          app_name := req.app_name
          warnings := overPeakWarnings "memory" tol req.memory ++
                      overPeakWarnings "compute" tol req.compute }

/-- The structured per-measurement verdict of the BottleneckAnalyzer
(spec section 4.3): the binding resource's name (a memory level name, or
"compute"), its achieved-to-peak ratio, and the low-confidence flag used when
no memory-side evidence exists. -/
structure BottleneckResult where
  resource : String
  ratio : ℚ
  low_confidence : Bool
deriving DecidableEq, Repr

/-- The achieved-to-peak ratio candidates contributed by memory levels: one
`(name, measured/peak)` pair per level with measured data, in hierarchy order
(spec section 4.3; levels without measured data are skipped). -/
def memCandidates (config : RooflineConfig) : List (String × ℚ) :=
  config.memory_levels.filterMap
    (fun lv => lv.measured_bandwidth.map (fun b => (lv.name, b / lv.peak_bandwidth)))

/-- Minimum-selection step of the analyzer: keep the candidate with the lower
ratio; on an exact tie the later (innermost) candidate wins, per the
tie-break of spec section 4.3. -/
def pickMin (best cand : String × ℚ) : String × ℚ :=
  if cand.2 ≤ best.2 then cand else best

/-- Modelled from the spec: the per-measurement BottleneckAnalyzer core
(section 4.3; the Julia `determine_bottleneck` is absent from the snapshot).
Returns the resource with the lowest achieved-to-peak ratio among all
resources with measured data; ties prefer memory over compute and innermost
memory levels over outer ones; with no memory-side data the verdict degrades
to a low-confidence compute-bound result. -/
def bottleneckCore (computeRatio : ℚ) (cands : List (String × ℚ)) : BottleneckResult :=
  match cands with
  | [] => { resource := "compute", ratio := computeRatio, low_confidence := true }
  | first :: rest =>
    if (rest.foldl pickMin first).2 ≤ computeRatio then
      { resource := (rest.foldl pickMin first).1
        ratio := (rest.foldl pickMin first).2
        low_confidence := false }
    else
      { resource := "compute", ratio := computeRatio, low_confidence := false }

/-- Modelled from the spec: the per-measurement bottleneck verdict
(section 4.3) — the compute ratio is `f / c.peak_flops` for the roof `c` the
measurement references; `none` only when the measurement references no
declared roof (construction already rejects that). -/
def determine_bottleneck_for (config : RooflineConfig) (m : Measurement) :
    Option BottleneckResult :=
  match config.compute_roofs.find? (fun r => r.name == m.compute_name) with
  | none => none
  | some c => some (bottleneckCore (m.flops / c.peak_flops) (memCandidates config))

/-- All achieved-to-peak ratios with data available for one measurement: the
compute ratio against roof `c`, and every memory-level ratio with measured
data (spec section 4.3). -/
def availableRatios (config : RooflineConfig) (m : Measurement) (c : ComputeRoof) :
    List (String × ℚ) :=
  ("compute", m.flops / c.peak_flops) :: memCandidates config

/-- An opaque handle for the externally rendered plot object returned by the
out-of-scope `create_roofline_plot` collaborator. -/
structure PlotHandle where
  hid : Nat
deriving DecidableEq, Repr

/-- The Python wrapper object (`python_utils.py`, class `RooflinePlotter`):
an object identity plus the `_config` and `_plot` slots, both `None` after
`__init__`. -/
structure RooflinePlotter where
  oid : Nat
  config : Option RooflineConfig
  plot : Option PlotHandle
deriving DecidableEq, Repr

/-- `RooflinePlotter.__init__` (`python_utils.py` lines 36-47): both slots
start out as `None`. Julia package loading is external and not modelled. -/
def RooflinePlotter.init (oid : Nat) : RooflinePlotter :=
  { oid := oid, config := none, plot := none }

/-- `RooflinePlotter.create_plot` (`python_utils.py` lines 62-145): build the
config (`params_to_config`, spec-modelled as `buildConfig`), render the plot
(external collaborator `render`), store both, and return `self`. -/
def RooflinePlotter.create_plot (self : RooflinePlotter)
    (render : RooflineConfig → PlotHandle) (tol : ℚ) (req : BuildRequest) :
    Except String RooflinePlotter :=
  match buildConfig tol req with
  | Except.error e => Except.error e
  | Except.ok cfg =>
    Except.ok { self with config := some cfg, plot := some (render cfg) }

/-- `RooflinePlotter.save` (`python_utils.py` lines 147-158): raises a
RuntimeError when no plot was created; otherwise saves (externally) and
returns `self`. -/
def RooflinePlotter.save (self : RooflinePlotter) (filename : String) :
    Except String RooflinePlotter :=
  match self.plot with
  | none => Except.error "No plot created. Call create_plot() first."
  | some _ => Except.ok self

/-- `RooflinePlotter.print_table` (`python_utils.py` lines 160-166): raises a
RuntimeError when no configuration was created; otherwise prints (externally)
and returns `self`. -/
def RooflinePlotter.print_table (self : RooflinePlotter) :
    Except String RooflinePlotter :=
  match self.config with
  | none => Except.error "No configuration created. Call create_plot() first."
  | some _ => Except.ok self

/-- `RooflinePlotter.get_bottleneck` (`python_utils.py` lines 168-178): raises
a RuntimeError when no configuration was created; otherwise returns the string
rendering of the external `determine_bottleneck` call, abstracted as
`analyze`. -/
def RooflinePlotter.get_bottleneck (self : RooflinePlotter)
    (analyze : RooflineConfig → String) : Except String String :=
  match self.config with
  | none => Except.error "No configuration created. Call create_plot() first."
  | some cfg => Except.ok (analyze cfg)

/-- Numeric rendering used by the serialization helper, standing for Python's
`str` applied to a numeric value. -/
def numStr (q : ℚ) : String := toString q

/-- The per-value serialization of `_make_julia_dict` (`python_utils.py`
line 194): `str(measured) if measured is not None else "nothing"`. -/
def measuredStr (measured : Option ℚ) : String :=
  match measured with
  | some v => numStr v
  | none => "nothing"

/-- One serialized mapping item of `_make_julia_dict` (`python_utils.py`
line 195). -/
def juliaItem (key : String) (peak : ℚ) (measured : Option ℚ) : String :=
  "\"" ++ key ++ "\" => (peak=" ++ numStr peak ++ ", measured=" ++
    measuredStr measured ++ ")"

/-- `RooflinePlotter._make_julia_dict` in named-tuple mode (`python_utils.py`
lines 191-196): one item per mapping entry, in insertion order, joined with
commas inside a Julia `Dict` constructor. -/
def makeJuliaDict (entries : List SpecEntry) : String :=
  "Dict(" ++ String.intercalate ", "
    (entries.map (fun e => juliaItem e.1 e.2.1 e.2.2)) ++ ")"

/-- The `combined_flops` serialization of `create_plot` (`python_utils.py`
line 117): `str(combined_flops) if combined_flops is not None else "nothing"`. -/
def combinedFlopsStr (combined_flops : Option ℚ) : String :=
  match combined_flops with
  | some v => numStr v
  | none => "nothing"

/-- A minimal valid build request (the simple DRAM+DP scenario of the test
suite, with small rational stand-ins) used to witness hypothesis-bearing
theorems. -/
def reqA : BuildRequest :=
  { memory := [("DRAM", 2, some 1)]
    compute := [("DP", 10, some 8)]
    combined_flops := none
    combined_groups := []
    num_cores := 64
    topology := "Dual Socket"
    cpu_name := "AMD EPYC 7713"
    app_name := "Test Simple"
    force_simple := false }

/-- The configuration produced by `buildConfig 0 reqA`. -/
def cfgA : RooflineConfig :=
  { memory_levels := [⟨"DRAM", 2, some 1⟩]
    compute_roofs := [⟨"DP", 10⟩]
    measurements := [⟨"DP", 8⟩]
    simple_mode := true
    num_cores := 64
    topology := "Dual Socket"
    cpu_name := "AMD EPYC 7713"
    app_name := "Test Simple"
    warnings := [] }

/-- The plotter state after a successful `create_plot` on `RooflinePlotter.init 5`
with request `reqA` and a rendering stub. -/
def outA : RooflinePlotter :=
  { oid := 5, config := some cfgA, plot := some ⟨1⟩ }

theorem strAppendAssoc (a b c : String) : a ++ b ++ c = a ++ (b ++ c) := by
  cases a with
  | mk da =>
    cases b with
    | mk db =>
      cases c with
      | mk dc => exact congrArg String.mk (List.append_assoc da db dc)

/-- C7: querying the bottleneck analysis, the performance table, or plot
saving on a plotter whose configuration and plot have not yet been created
always fails with a precondition-violation error rather than returning a
result. -/
theorem c7_query_before_create_fails (p : RooflinePlotter)
    (analyze : RooflineConfig → String) (filename : String)
    (hc : p.config = none) (hp : p.plot = none) :
    (∃ e, p.save filename = Except.error e) ∧
    (∃ e, p.print_table = Except.error e) ∧
    (∃ e, p.get_bottleneck analyze = Except.error e) := by
  refine ⟨⟨"No plot created. Call create_plot() first.", ?_⟩,
          ⟨"No configuration created. Call create_plot() first.", ?_⟩,
          ⟨"No configuration created. Call create_plot() first.", ?_⟩⟩
  · unfold RooflinePlotter.save
    rw [hp]
  · unfold RooflinePlotter.print_table
    rw [hc]
  · unfold RooflinePlotter.get_bottleneck
    rw [hc]

/-- Witness for C7: a freshly initialized plotter refuses all three queries. -/
theorem c7_query_before_create_fails_witness :
    (∃ e, (RooflinePlotter.init 0).save "roofline.png" = Except.error e) ∧
    (∃ e, (RooflinePlotter.init 0).print_table = Except.error e) ∧
    (∃ e, (RooflinePlotter.init 0).get_bottleneck (fun _ => "") = Except.error e) :=
  c7_query_before_create_fails (RooflinePlotter.init 0) (fun _ => "") "roofline.png"
    rfl rfl

/-- C9: every successful `create_plot` call returns the instance it was
invoked on (same object identity, enabling method chaining), and afterwards
both the stored configuration and the stored plot are non-None. -/
theorem c9_create_plot_returns_self (self : RooflinePlotter)
    (render : RooflineConfig → PlotHandle) (tol : ℚ) (req : BuildRequest)
    (out : RooflinePlotter)
    (h : self.create_plot render tol req = Except.ok out) :
    out.oid = self.oid ∧ out.config.isSome = true ∧ out.plot.isSome = true := by
  unfold RooflinePlotter.create_plot at h
  cases hb : buildConfig tol req with
  | error e =>
    rw [hb] at h
    exact absurd h (by simp)
  | ok cfg =>
    rw [hb] at h
    cases h
    exact ⟨rfl, rfl, rfl⟩

theorem buildConfig_reqA : buildConfig 0 reqA = Except.ok cfgA := by
  norm_num [buildConfig, reqA, cfgA, peaksPositive, measuredNonneg, resolveMeasurements,
    individualMeasurements, groupMeasurements, combinedScalarMeasurements,
    referencesResolve, overPeakWarnings, List.all, List.filter, List.filterMap, List.map]

/-- Witness for C9: the concrete simple request succeeds and yields a state
with the original identity and populated slots. -/
theorem c9_create_plot_returns_self_witness :
    outA.oid = (RooflinePlotter.init 5).oid ∧
    outA.config.isSome = true ∧ outA.plot.isSome = true :=
  c9_create_plot_returns_self (RooflinePlotter.init 5) (fun _ => ⟨1⟩) 0 reqA outA
    (by unfold RooflinePlotter.create_plot
        rw [buildConfig_reqA]
        rfl)

/-- C10: `_make_julia_dict` serializes an absent measured value as the Julia
optional `nothing` (in particular not as a numeric sentinel such as 0), a
present value as its numeric literal, and `create_plot` serializes an absent
`combined_flops` as `nothing` and a present one as its numeric literal. -/
theorem c10_nothing_serialization :
    (∀ (key : String) (peak : ℚ),
      juliaItem key peak none =
        "\"" ++ key ++ "\" => (peak=" ++ numStr peak ++ ", measured=" ++
          "nothing" ++ ")") ∧
    (∀ (key : String) (peak v : ℚ),
      juliaItem key peak (some v) =
        "\"" ++ key ++ "\" => (peak=" ++ numStr peak ++ ", measured=" ++
          numStr v ++ ")") ∧
    (∀ (key : String) (peak : ℚ),
      juliaItem key peak none ≠ juliaItem key peak (some 0)) ∧
    makeJuliaDict [("DP", 1404, none), ("SP", 2809, some 720)] =
      "Dict(\"DP\" => (peak=1404, measured=nothing), \"SP\" => (peak=2809, measured=720))" ∧
    combinedFlopsStr none = "nothing" ∧
    (∀ v : ℚ, combinedFlopsStr (some v) = numStr v) := by
  refine ⟨?_, ?_, ?_, by decide, rfl, fun v => rfl⟩
  · intro key peak
    rfl
  · intro key peak v
    rfl
  · intro key peak h
    have hlen := congrArg String.length h
    have hl : ∀ a b : String, (a ++ b).length = a.length + b.length := by
      intro a b
      cases a with
      | mk da =>
        cases b with
        | mk db => exact List.length_append da db
    have h7 : ("nothing" : String).length = 7 := by decide
    have h0 : (toString (0 : ℚ)).length = 1 := by decide
    unfold juliaItem measuredStr numStr at hlen
    simp only [hl, h7, h0] at hlen
    omega

theorem buildConfig_ok_inv (tol : ℚ) (req : BuildRequest) (config : RooflineConfig)
    (h : buildConfig tol req = Except.ok config) :
    ∃ ms, resolveMeasurements req.compute req.combined_flops req.combined_groups =
        Except.ok ms ∧
      config = { memory_levels := req.memory.map (fun e => MemoryLevel.mk e.1 e.2.1 e.2.2)
                 compute_roofs := req.compute.map (fun e => ComputeRoof.mk e.1 e.2.1)
                 measurements := ms
                 simple_mode := req.force_simple ||
                   (req.memory.length == 1 && req.compute.length == 1)
                 num_cores := req.num_cores
                 topology := req.topology
                 cpu_name := req.cpu_name
                 app_name := req.app_name
                 warnings := overPeakWarnings "memory" tol req.memory ++
                             overPeakWarnings "compute" tol req.compute } := by
  unfold buildConfig at h
  split at h
  · exact Except.noConfusion h
  · split at h
    · exact Except.noConfusion h
    · split at h
      · exact Except.noConfusion h
      · split at h
        · exact Except.noConfusion h
        · rename_i ms hms
          split at h
          · exact Except.noConfusion h
          · cases h
            exact ⟨ms, hms, rfl⟩

/-- C2: the resulting config has `simple_mode` true exactly when `force_simple`
is set or the memory mapping and the compute mapping each contain exactly one
entry; otherwise (more than one level or type, `force_simple` unset) it is
false. -/
theorem c2_simple_mode_iff (tol : ℚ) (req : BuildRequest) (config : RooflineConfig)
    (h : buildConfig tol req = Except.ok config) :
    config.simple_mode = true ↔
      (req.force_simple = true ∨ (req.memory.length = 1 ∧ req.compute.length = 1)) := by
  obtain ⟨ms, -, rfl⟩ := buildConfig_ok_inv tol req config h
  simp [Bool.or_eq_true, Bool.and_eq_true, beq_iff_eq]

/-- Witness for C2 on the concrete one-level one-type request. -/
theorem c2_simple_mode_iff_witness :
    cfgA.simple_mode = true ↔
      (reqA.force_simple = true ∨ (reqA.memory.length = 1 ∧ reqA.compute.length = 1)) :=
  c2_simple_mode_iff 0 reqA cfgA buildConfig_reqA

/-- C4: supplying both `combined_flops` and a non-empty CombinedGroup list in
the same build request always fails with an invalid-specification error and
produces no config object. -/
theorem c4_mixed_combined_rejected (tol : ℚ) (req : BuildRequest)
    (h1 : req.combined_flops.isSome = true) (h2 : req.combined_groups ≠ []) :
    ∃ e, buildConfig tol req = Except.error e := by
  obtain ⟨x, hx⟩ : ∃ x, req.combined_flops = some x := Option.isSome_iff_exists.mp h1
  obtain ⟨g, gs, hg⟩ := List.exists_cons_of_ne_nil h2
  have hres : resolveMeasurements req.compute req.combined_flops req.combined_groups =
      Except.error "invalid specification: combined_flops and combined groups are mutually exclusive" := by
    rw [hx, hg]
    rfl
  unfold buildConfig
  split
  · exact ⟨_, rfl⟩
  · split
    · exact ⟨_, rfl⟩
    · split
      · exact ⟨_, rfl⟩
      · rw [hres]
        exact ⟨_, rfl⟩

/-- The simple request with both aggregate mechanisms active at once. -/
def reqBoth : BuildRequest :=
  { reqA with
    compute := [("DP", 1404, none), ("SP", 2809, none)]
    combined_flops := some 720
    combined_groups := [(["DP", "SP"], 720)] }

/-- Witness for C4: the concrete double-aggregate request is rejected. -/
theorem c4_mixed_combined_rejected_witness :
    ∃ e, buildConfig 0 reqBoth = Except.error e :=
  c4_mixed_combined_rejected 0 reqBoth (by rfl) (by decide)

/-- C5: for every valid build request the config keeps one memory level per
entry of the caller's memory mapping, in insertion order. -/
theorem c5_memory_levels_preserved (tol : ℚ) (req : BuildRequest)
    (config : RooflineConfig) (h : buildConfig tol req = Except.ok config) :
    config.memory_levels.length = req.memory.length ∧
    config.memory_levels = req.memory.map (fun e => MemoryLevel.mk e.1 e.2.1 e.2.2) := by
  obtain ⟨ms, -, rfl⟩ := buildConfig_ok_inv tol req config h
  exact ⟨by simp, rfl⟩

/-- Witness for C5 on the concrete request. -/
theorem c5_memory_levels_preserved_witness :
    cfgA.memory_levels.length = reqA.memory.length ∧
    cfgA.memory_levels = reqA.memory.map (fun e => MemoryLevel.mk e.1 e.2.1 e.2.2) :=
  c5_memory_levels_preserved 0 reqA cfgA buildConfig_reqA

theorem mem_individualMeasurements {compute : List SpecEntry} {m : Measurement}
    (h : m ∈ individualMeasurements compute) :
    ∃ p, (m.compute_name, p, some m.flops) ∈ compute := by
  unfold individualMeasurements at h
  obtain ⟨e, he, hm⟩ := List.mem_filterMap.mp h
  rcases e with ⟨n, p, mv⟩
  cases mv with
  | none => exact Option.noConfusion hm
  | some v =>
    cases hm
    exact ⟨p, he⟩

theorem mem_combinedScalarMeasurements {compute : List SpecEntry} {x : ℚ}
    {m : Measurement} (h : m ∈ combinedScalarMeasurements compute x) :
    m.flops = x ∧ ∃ p, (m.compute_name, p, (none : Option ℚ)) ∈ compute := by
  unfold combinedScalarMeasurements at h
  obtain ⟨e, he, hm⟩ := List.mem_map.mp h
  obtain ⟨he2, hef⟩ := List.mem_filter.mp he
  rcases e with ⟨n, p, mv⟩
  have hmv : mv = none := Option.isNone_iff_eq_none.mp hef
  subst hmv
  cases hm
  exact ⟨rfl, p, he2⟩

theorem nodup_fst_inj {n : String} {b c : ℚ × Option ℚ} :
    ∀ {l : List SpecEntry}, (l.map Prod.fst).Nodup →
      (n, b) ∈ l → (n, c) ∈ l → b = c := by
  intro l
  induction l with
  | nil => intro _ hb; cases hb
  | cons e es ih =>
    intro hnd hb hc
    rw [List.map_cons, List.nodup_cons] at hnd
    rcases List.mem_cons.mp hb with hb1 | hb2
    · rcases List.mem_cons.mp hc with hc1 | hc2
      · exact congrArg Prod.snd (hb1.trans hc1.symm)
      · exfalso
        have hmem : n ∈ es.map Prod.fst := List.mem_map.mpr ⟨(n, c), hc2, rfl⟩
        rw [← hb1] at hnd
        exact hnd.1 hmem
    · rcases List.mem_cons.mp hc with hc1 | hc2
      · exfalso
        have hmem : n ∈ es.map Prod.fst := List.mem_map.mpr ⟨(n, b), hb2, rfl⟩
        rw [← hc1] at hnd
        exact hnd.1 hmem
      · exact ih hnd.2 hb2 hc2

theorem countP_individualMeasurements (n : String) :
    ∀ compute : List SpecEntry,
      (individualMeasurements compute).countP (fun m => m.compute_name == n) =
        compute.countP (fun e => e.1 == n && e.2.2.isSome) := by
  intro compute
  induction compute with
  | nil => rfl
  | cons e es ih =>
    rcases e with ⟨a, p, mv⟩
    cases mv with
    | none =>
      simp only [individualMeasurements, List.filterMap_cons, Option.map_none',
        List.countP_cons] at *
      simp [ih]
    | some v =>
      simp only [individualMeasurements, List.filterMap_cons, Option.map_some',
        List.countP_cons] at *
      simp [ih]

theorem countP_combinedScalarMeasurements (n : String) (x : ℚ) :
    ∀ compute : List SpecEntry,
      (combinedScalarMeasurements compute x).countP (fun m => m.compute_name == n) =
        compute.countP (fun e => e.1 == n && e.2.2.isNone) := by
  intro compute
  induction compute with
  | nil => rfl
  | cons e es ih =>
    rcases e with ⟨a, p, mv⟩
    cases mv with
    | none =>
      simp only [combinedScalarMeasurements, List.filter_cons, List.map_cons,
        List.countP_cons] at *
      simp [List.countP_cons, List.map_cons, beq_iff_eq, ih]
    | some v =>
      simp only [combinedScalarMeasurements, List.filter_cons, List.map_cons,
        List.countP_cons] at *
      simp [List.countP_cons, List.map_cons, beq_iff_eq, ih]

theorem nodup_counts_of_none (n : String) (p : ℚ) :
    ∀ compute : List SpecEntry, (compute.map Prod.fst).Nodup →
      (n, p, (none : Option ℚ)) ∈ compute →
      compute.countP (fun e => e.1 == n && e.2.2.isSome) = 0 ∧
      compute.countP (fun e => e.1 == n && e.2.2.isNone) = 1 := by
  intro compute
  induction compute with
  | nil => intro _ hm; cases hm
  | cons e es ih =>
    intro hnd hm
    rw [List.map_cons, List.nodup_cons] at hnd
    rcases List.mem_cons.mp hm with he | hm2
    · have hzero : ∀ b : Option ℚ → Bool,
          es.countP (fun u => u.1 == n && b u.2.2) = 0 := by
        intro b
        rw [List.countP_eq_zero]
        intro u hu hup
        simp only [Bool.and_eq_true, beq_iff_eq] at hup
        have hu1 : u.1 ∈ es.map Prod.fst := List.mem_map.mpr ⟨u, hu, rfl⟩
        rw [hup.1] at hu1
        rw [← he] at hnd
        exact hnd.1 hu1
      constructor
      · rw [List.countP_cons, ← he]
        simp [hzero (fun o => o.isSome)]
      · rw [List.countP_cons, ← he]
        simp [hzero (fun o => o.isNone)]
    · have hne : e.1 ≠ n := by
        intro hcontra
        have hmem : n ∈ es.map Prod.fst := List.mem_map.mpr ⟨(n, p, none), hm2, rfl⟩
        rw [hcontra] at hnd
        exact hnd.1 hmem
      obtain ⟨ih1, ih2⟩ := ih hnd.2 hm2
      constructor <;> rw [List.countP_cons] <;> simp [hne, ih1, ih2]

/-- C3: with `combined_flops = X` supplied (and no combined groups), the
resolver emits exactly one Measurement per compute type without an individual
value, each carrying the identical value X; in particular with all types
unmeasured it yields as many Measurements as types, all with flops X. -/
theorem c3_combined_flops_same_value (compute : List SpecEntry) (x : ℚ)
    (ms : List Measurement)
    (hnd : (compute.map Prod.fst).Nodup)
    (h : resolveMeasurements compute (some x) [] = Except.ok ms) :
    (∀ n p, (n, p, (none : Option ℚ)) ∈ compute →
      ms.countP (fun m => m.compute_name == n) = 1) ∧
    (∀ n p, (n, p, (none : Option ℚ)) ∈ compute →
      ∀ m ∈ ms, m.compute_name = n → m.flops = x) ∧
    ((∀ e ∈ compute, e.2.2 = none) →
      ms.length = compute.length ∧ ∀ m ∈ ms, m.flops = x) := by
  have hms : ms = individualMeasurements compute ++ combinedScalarMeasurements compute x := by
    unfold resolveMeasurements at h
    simp only [List.isEmpty_nil, if_true, Except.ok.injEq] at h
    exact h.symm
  subst hms
  refine ⟨?_, ?_, ?_⟩
  · intro n p hm
    obtain ⟨h0, h1⟩ := nodup_counts_of_none n p compute hnd hm
    rw [List.countP_append, countP_individualMeasurements, countP_combinedScalarMeasurements,
      h0, h1]
  · intro n p hm m hmem hname
    rcases List.mem_append.mp hmem with hin | hin
    · exfalso
      obtain ⟨q, hq⟩ := mem_individualMeasurements hin
      rw [hname] at hq
      have := nodup_fst_inj hnd hq hm
      exact Option.noConfusion (congrArg Prod.snd this)
    · exact (mem_combinedScalarMeasurements hin).1
  · intro hall
    have hind : individualMeasurements compute = [] := by
      unfold individualMeasurements
      rw [List.filterMap_eq_nil_iff]
      intro e he
      rw [hall e he]
      rfl
    have hfil : compute.filter (fun e => e.2.2.isNone) = compute := by
      rw [List.filter_eq_self]
      intro e he
      rw [hall e he]
      rfl
    constructor
    · rw [hind, List.nil_append]
      unfold combinedScalarMeasurements
      rw [hfil, List.length_map]
    · intro m hmem
      rcases List.mem_append.mp hmem with hin | hin
      · rw [hind] at hin
        cases hin
      · exact (mem_combinedScalarMeasurements hin).1

/-- The two-type fully-unmeasured compute mapping of the combined-measurement
test, with integer stand-ins for the peaks. -/
def computeB : List SpecEntry := [("DP", 1404, none), ("SP", 2809, none)]

/-- The measurements the resolver produces for `computeB` with combined value
720. -/
def msB : List Measurement := [⟨"DP", 720⟩, ⟨"SP", 720⟩]

/-- Witness for C3: two unmeasured types with combined value 720 get exactly
one measurement each, both with flops 720. -/
theorem c3_combined_flops_same_value_witness :
    (∀ n p, (n, p, (none : Option ℚ)) ∈ computeB →
      msB.countP (fun m => m.compute_name == n) = 1) ∧
    (∀ n p, (n, p, (none : Option ℚ)) ∈ computeB →
      ∀ m ∈ msB, m.compute_name = n → m.flops = 720) ∧
    ((∀ e ∈ computeB, e.2.2 = none) →
      msB.length = computeB.length ∧ ∀ m ∈ msB, m.flops = 720) :=
  c3_combined_flops_same_value computeB 720 msB (by decide) (by rfl)

/-- C6: with only individually measured values (no aggregate mechanism), every
resolved Measurement carries the caller-supplied individual value of its
compute type, and no Measurement is emitted for a type with no supplied
value. -/
theorem c6_individual_only_exact (compute : List SpecEntry) (ms : List Measurement)
    (hnd : (compute.map Prod.fst).Nodup)
    (h : resolveMeasurements compute none [] = Except.ok ms) :
    (∀ m ∈ ms, ∃ p, (m.compute_name, p, some m.flops) ∈ compute) ∧
    (∀ m ∈ ms, ∀ p v, (m.compute_name, p, some v) ∈ compute → m.flops = v) ∧
    (∀ n p, (n, p, (none : Option ℚ)) ∈ compute → ∀ m ∈ ms, m.compute_name ≠ n) := by
  have hms : ms = individualMeasurements compute := by
    unfold resolveMeasurements groupMeasurements at h
    simp only [List.flatMap_nil, List.append_nil, Except.ok.injEq] at h
    exact h.symm
  subst hms
  refine ⟨?_, ?_, ?_⟩
  · intro m hmem
    exact mem_individualMeasurements hmem
  · intro m hmem p v hpv
    obtain ⟨q, hq⟩ := mem_individualMeasurements hmem
    have := nodup_fst_inj hnd hq hpv
    exact (Option.some.injEq _ _).mp (congrArg Prod.snd this)
  · intro n p hnone m hmem hname
    obtain ⟨q, hq⟩ := mem_individualMeasurements hmem
    rw [hname] at hq
    have := nodup_fst_inj hnd hq hnone
    exact Option.noConfusion (congrArg Prod.snd this)

/-- A compute mapping with one measured and one unmeasured type. -/
def computeC : List SpecEntry := [("DP", 10, some 8), ("SP", 20, none)]

/-- The measurements the resolver produces for `computeC` with no aggregate
mechanism. -/
def msC : List Measurement := [⟨"DP", 8⟩]

/-- Witness for C6 on the concrete mixed mapping: the measured type keeps its
value and the unmeasured type gets no measurement. -/
theorem c6_individual_only_exact_witness :
    (∀ m ∈ msC, ∃ p, (m.compute_name, p, some m.flops) ∈ computeC) ∧
    (∀ m ∈ msC, ∀ p v, (m.compute_name, p, some v) ∈ computeC → m.flops = v) ∧
    (∀ n p, (n, p, (none : Option ℚ)) ∈ computeC → ∀ m ∈ msC, m.compute_name ≠ n) :=
  c6_individual_only_exact computeC msC (by decide) (by rfl)

theorem pickMin_le_left (a x : String × ℚ) : (pickMin a x).2 ≤ a.2 := by
  unfold pickMin
  split
  · assumption
  · exact le_refl _

theorem pickMin_le_right (a x : String × ℚ) : (pickMin a x).2 ≤ x.2 := by
  unfold pickMin
  split
  · exact le_refl _
  · exact le_of_not_le (by assumption)

theorem foldl_pickMin_le_init :
    ∀ (l : List (String × ℚ)) (a : String × ℚ), (l.foldl pickMin a).2 ≤ a.2 := by
  intro l
  induction l with
  | nil => intro a; exact le_refl _
  | cons x xs ih =>
    intro a
    rw [List.foldl_cons]
    exact le_trans (ih (pickMin a x)) (pickMin_le_left a x)

theorem foldl_pickMin_le_mem :
    ∀ (l : List (String × ℚ)) (a x : String × ℚ), x ∈ l → (l.foldl pickMin a).2 ≤ x.2 := by
  intro l
  induction l with
  | nil => intro a x hx; cases hx
  | cons y ys ih =>
    intro a x hx
    rw [List.foldl_cons]
    rcases List.mem_cons.mp hx with rfl | hx2
    · exact le_trans (foldl_pickMin_le_init ys (pickMin a x)) (pickMin_le_right a x)
    · exact ih (pickMin a y) x hx2

theorem foldl_pickMin_mem :
    ∀ (l : List (String × ℚ)) (a : String × ℚ),
      l.foldl pickMin a = a ∨ l.foldl pickMin a ∈ l := by
  intro l
  induction l with
  | nil => intro a; exact Or.inl rfl
  | cons x xs ih =>
    intro a
    rw [List.foldl_cons]
    rcases ih (pickMin a x) with h | h
    · rw [h]
      unfold pickMin
      split
      · exact Or.inr (List.mem_cons_self _ _)
      · exact Or.inl rfl
    · exact Or.inr (List.mem_cons_of_mem _ h)

theorem bottleneckCore_spec (computeRatio : ℚ) (cands : List (String × ℚ)) :
    ((bottleneckCore computeRatio cands).resource,
      (bottleneckCore computeRatio cands).ratio) ∈
        ("compute", computeRatio) :: cands ∧
    ∀ p ∈ ("compute", computeRatio) :: cands,
      (bottleneckCore computeRatio cands).ratio ≤ p.2 := by
  cases cands with
  | nil =>
    constructor
    · exact List.mem_cons_self _ _
    · intro p hp
      rcases List.mem_cons.mp hp with rfl | h
      · exact le_refl _
      · cases h
  | cons first rest =>
    have hcore : bottleneckCore computeRatio (first :: rest) =
        if (rest.foldl pickMin first).2 ≤ computeRatio then
          { resource := (rest.foldl pickMin first).1
            ratio := (rest.foldl pickMin first).2
            low_confidence := false }
        else
          { resource := "compute", ratio := computeRatio, low_confidence := false } := rfl
    rw [hcore]
    by_cases hle : (rest.foldl pickMin first).2 ≤ computeRatio
    · rw [if_pos hle]
      constructor
      · have hmem : rest.foldl pickMin first ∈ ("compute", computeRatio) :: first :: rest := by
          rcases foldl_pickMin_mem rest first with h | h
          · rw [h]
            exact List.mem_cons_of_mem _ (List.mem_cons_self _ _)
          · exact List.mem_cons_of_mem _ (List.mem_cons_of_mem _ h)
        simpa using hmem
      · intro p hp
        rcases List.mem_cons.mp hp with rfl | h2
        · exact hle
        · rcases List.mem_cons.mp h2 with rfl | h3
          · exact foldl_pickMin_le_init rest p
          · exact foldl_pickMin_le_mem rest first p h3
    · rw [if_neg hle]
      have hge : computeRatio ≤ (rest.foldl pickMin first).2 := le_of_not_le hle
      constructor
      · exact List.mem_cons_self _ _
      · intro p hp
        rcases List.mem_cons.mp hp with rfl | h2
        · exact le_refl _
        · rcases List.mem_cons.mp h2 with rfl | h3
          · exact le_trans hge (foldl_pickMin_le_init rest p)
          · exact le_trans hge (foldl_pickMin_le_mem rest first p h3)

/-- The one-level config with memory ratio 1/2 and compute ratio 8/10. -/
def cfgMemBound : RooflineConfig :=
  { memory_levels := [⟨"MEM", 2, some 1⟩]
    compute_roofs := [⟨"DP", 10⟩]
    measurements := [⟨"DP", 8⟩]
    simple_mode := true
    num_cores := 1
    topology := "t"
    cpu_name := "c"
    app_name := "a"
    warnings := [] }

/-- The one-level config with memory ratio 9/10 and compute ratio 3/10. -/
def cfgCpuBound : RooflineConfig :=
  { memory_levels := [⟨"MEM", 10, some 9⟩]
    compute_roofs := [⟨"DP", 10⟩]
    measurements := [⟨"DP", 3⟩]
    simple_mode := true
    num_cores := 1
    topology := "t"
    cpu_name := "c"
    app_name := "a"
    warnings := [] }

/-- C1: for every configuration and measurement (whose compute roof is
declared), the reported bottleneck is a resource with measured data whose
measured-to-peak ratio is lowest among all such resources; in particular a
memory ratio 1/2 against a compute ratio 8/10 reports the memory level, and a
memory ratio 9/10 against a compute ratio 3/10 reports compute. -/
theorem c1_bottleneck_is_lowest_ratio :
    (∀ (config : RooflineConfig) (m : Measurement) (c : ComputeRoof),
      config.compute_roofs.find? (fun r => r.name == m.compute_name) = some c →
      ∃ r, determine_bottleneck_for config m = some r ∧
        (r.resource, r.ratio) ∈ availableRatios config m c ∧
        ∀ p ∈ availableRatios config m c, r.ratio ≤ p.2) ∧
    determine_bottleneck_for cfgMemBound ⟨"DP", 8⟩ =
      some { resource := "MEM", ratio := 1 / 2, low_confidence := false } ∧
    determine_bottleneck_for cfgCpuBound ⟨"DP", 3⟩ =
      some { resource := "compute", ratio := 3 / 10, low_confidence := false } := by
  refine ⟨?_, ?_, ?_⟩
  · intro config m c hfind
    refine ⟨bottleneckCore (m.flops / c.peak_flops) (memCandidates config), ?_, ?_, ?_⟩
    · unfold determine_bottleneck_for
      rw [hfind]
    · exact (bottleneckCore_spec (m.flops / c.peak_flops) (memCandidates config)).1
    · exact fun p hp =>
        (bottleneckCore_spec (m.flops / c.peak_flops) (memCandidates config)).2 p hp
  · have hc : determine_bottleneck_for cfgMemBound ⟨"DP", 8⟩ =
        some (bottleneckCore ((8 : ℚ) / 10) [("MEM", (1 : ℚ) / 2)]) := rfl
    have hcore : bottleneckCore ((8 : ℚ) / 10) [("MEM", (1 : ℚ) / 2)] =
        if ((1 : ℚ) / 2) ≤ (8 : ℚ) / 10 then
          { resource := "MEM", ratio := 1 / 2, low_confidence := false }
        else
          { resource := "compute", ratio := 8 / 10, low_confidence := false } := rfl
    rw [hc, hcore, if_pos (by norm_num : ((1 : ℚ) / 2) ≤ (8 : ℚ) / 10)]
  · have hc : determine_bottleneck_for cfgCpuBound ⟨"DP", 3⟩ =
        some (bottleneckCore ((3 : ℚ) / 10) [("MEM", (9 : ℚ) / 10)]) := rfl
    have hcore : bottleneckCore ((3 : ℚ) / 10) [("MEM", (9 : ℚ) / 10)] =
        if ((9 : ℚ) / 10) ≤ (3 : ℚ) / 10 then
          { resource := "MEM", ratio := 9 / 10, low_confidence := false }
        else
          { resource := "compute", ratio := 3 / 10, low_confidence := false } := rfl
    rw [hc, hcore, if_neg (by norm_num : ¬ ((9 : ℚ) / 10) ≤ (3 : ℚ) / 10)]

/-- Witness for C1: the memory-bound example instantiates the universal part. -/
theorem c1_bottleneck_is_lowest_ratio_witness :
    ∃ r, determine_bottleneck_for cfgMemBound ⟨"DP", 8⟩ = some r ∧
      (r.resource, r.ratio) ∈ availableRatios cfgMemBound ⟨"DP", 8⟩ ⟨"DP", 10⟩ ∧
      ∀ p ∈ availableRatios cfgMemBound ⟨"DP", 8⟩ ⟨"DP", 10⟩, r.ratio ≤ p.2 :=
  c1_bottleneck_is_lowest_ratio.1 cfgMemBound ⟨"DP", 8⟩ ⟨"DP", 10⟩ (by rfl)

theorem peaksPositive_true {l : List SpecEntry} (h : ∀ e ∈ l, 0 < e.2.1) :
    peaksPositive l = true :=
  List.all_eq_true.mpr (fun e he => decide_eq_true (h e he))

theorem peaksPositive_false {l : List SpecEntry} {e : SpecEntry}
    (he : e ∈ l) (hle : e.2.1 ≤ 0) : peaksPositive l = false := by
  cases hall : peaksPositive l with
  | false => rfl
  | true =>
    exfalso
    unfold peaksPositive at hall
    have h := List.all_eq_true.mp hall e he
    exact absurd (of_decide_eq_true h) (not_lt.mpr hle)

theorem measuredNonneg_true {l : List SpecEntry}
    (h : ∀ e ∈ l, ∀ v, e.2.2 = some v → 0 ≤ v) : measuredNonneg l = true := by
  unfold measuredNonneg
  rw [List.all_eq_true]
  intro e he
  cases hv : e.2.2 with
  | none => rfl
  | some v => exact decide_eq_true (h e he v hv)

theorem measuredNonneg_false {l : List SpecEntry} {e : SpecEntry} {v : ℚ}
    (he : e ∈ l) (hv : e.2.2 = some v) (hneg : v < 0) : measuredNonneg l = false := by
  cases hall : measuredNonneg l with
  | false => rfl
  | true =>
    exfalso
    unfold measuredNonneg at hall
    have h := List.all_eq_true.mp hall e he
    rw [hv] at h
    have h2 : decide (0 ≤ v) = true := h
    exact absurd (of_decide_eq_true h2) (not_le.mpr hneg)

theorem overPeakWarnings_ne_nil {kind : String} {tol : ℚ} {l : List SpecEntry}
    {e : SpecEntry} {v : ℚ}
    (he : e ∈ l) (hv : e.2.2 = some v) (hover : e.2.1 * (1 + tol) < v) :
    overPeakWarnings kind tol l ≠ [] := by
  intro hnil
  unfold overPeakWarnings at hnil
  rw [List.map_eq_nil_iff] at hnil
  have hmem : e ∈ l.filter (fun e =>
      match e.2.2 with
      | some v => decide (e.2.1 * (1 + tol) < v)
      | none => false) := by
    refine List.mem_filter.mpr ⟨he, ?_⟩
    rw [hv]
    exact decide_eq_true hover
  rw [hnil] at hmem
  cases hmem

/-- C8: construction fails for a non-positive peak or a negative measured
value, but a measured value exceeding its peak beyond the tolerance does not
fail — a config is still produced and the anomaly surfaces only as a
warning. -/
theorem c8_overpeak_warns_not_fails (tol : ℚ) (req : BuildRequest) :
    ((∃ e ∈ req.memory ++ req.compute, e.2.1 ≤ 0) →
      ∃ err, buildConfig tol req = Except.error err) ∧
    ((∃ e ∈ req.memory ++ req.compute, ∃ v, e.2.2 = some v ∧ v < 0) →
      ∃ err, buildConfig tol req = Except.error err) ∧
    (∀ ms : List Measurement,
      req.memory ≠ [] → req.compute ≠ [] →
      (∀ e ∈ req.memory ++ req.compute, 0 < e.2.1) →
      (∀ e ∈ req.memory ++ req.compute, ∀ v, e.2.2 = some v → 0 ≤ v) →
      resolveMeasurements req.compute req.combined_flops req.combined_groups =
        Except.ok ms →
      referencesResolve (req.compute.map (fun e => ComputeRoof.mk e.1 e.2.1)) ms = true →
      (∃ e ∈ req.memory ++ req.compute, ∃ v, e.2.2 = some v ∧ e.2.1 * (1 + tol) < v) →
      ∃ config, buildConfig tol req = Except.ok config ∧ config.warnings ≠ []) := by
  refine ⟨?_, ?_, ?_⟩
  · rintro ⟨e, he, hle⟩
    unfold buildConfig
    split
    · exact ⟨_, rfl⟩
    · split
      · exact ⟨_, rfl⟩
      · exfalso
        rename_i hcond
        simp only [Bool.not_eq_true', Bool.not_eq_false, Bool.and_eq_true] at hcond
        rcases List.mem_append.mp he with hm | hm
        · have h := hcond.1
          rw [peaksPositive_false hm hle] at h
          exact Bool.noConfusion h
        · have h := hcond.2
          rw [peaksPositive_false hm hle] at h
          exact Bool.noConfusion h
  · rintro ⟨e, he, v, hv, hneg⟩
    unfold buildConfig
    split
    · exact ⟨_, rfl⟩
    · split
      · exact ⟨_, rfl⟩
      · split
        · exact ⟨_, rfl⟩
        · exfalso
          rename_i h1 h2 hcond
          simp only [Bool.not_eq_true', Bool.not_eq_false, Bool.and_eq_true] at hcond
          rcases List.mem_append.mp he with hm | hm
          · have h := hcond.1
            rw [measuredNonneg_false hm hv hneg] at h
            exact Bool.noConfusion h
          · have h := hcond.2
            rw [measuredNonneg_false hm hv hneg] at h
            exact Bool.noConfusion h
  · intro ms hm hc hpos hnneg hres href hanom
    have h1 : (req.memory.isEmpty || req.compute.isEmpty) = false := by
      obtain ⟨a, as, ha⟩ := List.exists_cons_of_ne_nil hm
      obtain ⟨b, bs, hb⟩ := List.exists_cons_of_ne_nil hc
      rw [ha, hb]
      rfl
    have h2 : peaksPositive req.memory = true :=
      peaksPositive_true (fun e he => hpos e (List.mem_append_left _ he))
    have h3 : peaksPositive req.compute = true :=
      peaksPositive_true (fun e he => hpos e (List.mem_append_right _ he))
    have h4 : measuredNonneg req.memory = true :=
      measuredNonneg_true (fun e he v hv => hnneg e (List.mem_append_left _ he) v hv)
    have h5 : measuredNonneg req.compute = true :=
      measuredNonneg_true (fun e he v hv => hnneg e (List.mem_append_right _ he) v hv)
    refine ⟨{ memory_levels := req.memory.map (fun e => MemoryLevel.mk e.1 e.2.1 e.2.2)
              compute_roofs := req.compute.map (fun e => ComputeRoof.mk e.1 e.2.1)
              measurements := ms
              simple_mode := req.force_simple ||
                (req.memory.length == 1 && req.compute.length == 1)
              num_cores := req.num_cores
              topology := req.topology
              cpu_name := req.cpu_name
              app_name := req.app_name
              warnings := overPeakWarnings "memory" tol req.memory ++
                          overPeakWarnings "compute" tol req.compute }, ?_, ?_⟩
    · unfold buildConfig
      simp only [h1, h2, h3, h4, h5, hres, href, Bool.and_self, Bool.not_true,
        Bool.false_eq_true, if_false]
    · obtain ⟨e, he, v, hv, hover⟩ := hanom
      intro hnil
      have hnil2 : overPeakWarnings "memory" tol req.memory ++
          overPeakWarnings "compute" tol req.compute = [] := hnil
      rcases List.append_eq_nil.mp hnil2 with ⟨ha, hb⟩
      rcases List.mem_append.mp he with hm | hm
      · exact overPeakWarnings_ne_nil hm hv hover ha
      · exact overPeakWarnings_ne_nil hm hv hover hb

/-- A request whose only over-peak measured value is on the compute side: the
measured flop rate 2 exceeds the peak 1. -/
def reqWarn : BuildRequest :=
  { memory := [("DRAM", 2, some 1)]
    compute := [("DP", 1, some 2)]
    combined_flops := none
    combined_groups := []
    num_cores := 4
    topology := "T"
    cpu_name := "C"
    app_name := "A"
    force_simple := false }

/-- Witness for C8: the request with a compute-side over-peak measured value
still builds, with a warning attached. -/
theorem c8_overpeak_warns_not_fails_witness :
    ∃ config, buildConfig 0 reqWarn = Except.ok config ∧ config.warnings ≠ [] :=
  (c8_overpeak_warns_not_fails 0 reqWarn).2.2 [⟨"DP", 2⟩]
    (by decide) (by decide) (by decide) (by decide) (by rfl) (by rfl)
    ⟨("DP", 1, some 2), by decide, 2, rfl, by norm_num⟩
